import Mathlib

/-!
Verification of the aperture-photometry and light-curve-extraction engine of
`eleanor` (`src/eleanor/targetdata.py`) against its natural-language
specification.  The Python source is shallowly embedded: pixel cutouts and
aperture masks become lists of lists of rationals, the per-cadence loops of
`get_lightcurve` become list computations, and the scipy/photutils
collaborators (`minimize`, aperture rasterization, the SFF corrector) are
abstracted as parameters or descriptor records, exactly at the interface the
source calls them.
-/

namespace Eleanor

/-- A 2D pixel array (one cadence of the TPF cutout, or an aperture mask):
a list of rows of rational values. -/
abbrev Img : Type := List (List ℚ)

/-- Sum over all pixels of the elementwise product of two equally-shaped 2D
arrays: the embedding of `np.sum(a * b)`. -/
def sumImg2 (a b : Img) : ℚ :=
  (List.zipWith (fun ra rb => (List.zipWith (fun x y => x * y) ra rb).sum) a b).sum

/-- Pixel `(i, j)` of a 2D array, reading 0 outside the array. -/
def entry (a : Img) (i j : ℕ) : ℚ := (a.getD i []).getD j 0

/-- Line 177 of `targetdata.py`:
`all_lc[a][cad] = np.sum(self.tpf[cad] * self.all_apertures[a])`. -/
def fluxAt (tpf : List Img) (ap : Img) (cad : ℕ) : ℚ :=
  sumImg2 (tpf.getD cad []) ap

/-- Radicand of line 176 of `targetdata.py`:
`all_lc_err[a][cad] = np.sqrt(np.sum(self.tpf_err[cad]**2 * self.all_apertures[a]))`.
The error image is squared elementwise, the mask enters to the FIRST power. -/
def fluxErrSqAt (tpfErr : List Img) (ap : Img) (cad : ℕ) : ℚ :=
  sumImg2 ((tpfErr.getD cad []).map (fun row => row.map (fun x => x ^ 2))) ap

/-- Modelled from the spec (section 4.2): radicand of the specified
uncertainty `flux_error(t) = sqrt(sum(error[t]^2 * mask^2))`, with the mask
squared.  Kept separate from `fluxErrSqAt` (the source formula) so the two
can be compared. -/
def fluxErrSqSpecAt (tpfErr : List Img) (ap : Img) (cad : ℕ) : ℚ :=
  sumImg2 ((tpfErr.getD cad []).map (fun row => row.map (fun x => x ^ 2)))
    (ap.map (fun row => row.map (fun x => x ^ 2)))

/-- The flux time series of one aperture: row `a` of `all_lc` in
`get_lightcurve` (lines 174-177). -/
def allLC (tpf : List Img) (ap : Img) : List ℚ :=
  (List.range tpf.length).map (fun cad => fluxAt tpf ap cad)

/-- Arithmetic mean, `np.mean` (0 on the empty list, whose numpy value NaN
is guarded separately where it matters). -/
def meanQ (xs : List ℚ) : ℚ := xs.sum / xs.length

/-- Sum of squared deviations from the mean. -/
def sqDevSum (xs : List ℚ) : ℚ := (xs.map (fun x => (x - meanQ xs) ^ 2)).sum

/-- Population variance, the square of `np.std` (numpy default `ddof=0`). -/
def popVar (xs : List ℚ) : ℚ := sqDevSum xs / xs.length

/-- Sample variance (`ddof=1`), the square of the sample standard deviation;
meaningful for lists of length at least 2. -/
def sampleVar (xs : List ℚ) : ℚ := sqDevSum xs / ((xs.length : ℚ) - 1)

section EasyClaims

/-! ### Systematics-correction entry point (`system_corr`, lines 287-294) -/

/-- Lines 287-294 of `targetdata.py`: `system_corr(jitter, roll)` runs
`jitter_corr` when `jitter` is true, then `rotation_corr` when `roll` is
true.  The two corrections themselves are abstracted as functions on the
light curve. -/
def systemCorr (jc rc : List ℚ → List ℚ) (jitter roll : Bool) (lc : List ℚ) : List ℚ :=
  let lc1 := if jitter then jc lc else lc
  if roll then rc lc1 else lc1

/-- C9: the combined systematics-correction entry point applies, depending on
its two flags, the jitter correction, the roll correction, neither, or both;
when both are requested the jitter correction is applied strictly before the
roll correction, so the roll correction operates on the jitter-corrected
light curve. -/
theorem C9_confirmed (jc rc : List ℚ → List ℚ) (lc : List ℚ) :
    systemCorr jc rc false false lc = lc ∧
    systemCorr jc rc true false lc = jc lc ∧
    systemCorr jc rc false true lc = rc lc ∧
    systemCorr jc rc true true lc = rc (jc lc) :=
  ⟨rfl, rfl, rfl, rfl⟩

/-! ### Optimizer schedule of `jitter_corr` (lines 254-271) -/

/-- One invocation of `scipy.optimize.minimize` as visible from the source:
the initial guess and the box bounds that `jitter_corr` passes to it. -/
structure OptCall where
  init : List ℚ
  bounds : List (ℚ × ℚ)
deriving DecidableEq

/-- Line 269 of `targetdata.py`:
`bnds = ((-15.,15.), (-15.,15.), (-15.,15.), (-15.,15.), (-15.,15.))`. -/
def jitterBnds : List (ℚ × ℚ) := List.replicate 5 (-15, 15)

/-- Line 265 of `targetdata.py`: `initGuess = [3, 3, 3, 3, 3]`. -/
def jitterInitGuess0 : List ℚ := [3, 3, 3, 3, 3]

/-- The optimizer schedule of lines 254-270: running `i` rounds of the
`for i in range(5)` loop returns the list of optimizer calls made so far and
the current fitted solution `test.x`.  Round 0 starts from `initGuess`
`[3,3,3,3,3]`; every later round starts from the previous round's `test.x`.
The optimizer itself (`scipy.optimize.minimize`) is abstracted as `opt`. -/
def jitterRounds (opt : OptCall → List ℚ) : ℕ → List OptCall × List ℚ
  | 0 => ([], [])
  | i + 1 =>
    let s := jitterRounds opt i
    let ig := if i = 0 then jitterInitGuess0 else s.2
    let call : OptCall := ⟨ig, jitterBnds⟩
    (s.1 ++ [call], opt call)

/-- The full list of optimizer calls made by `jitter_corr`
(`for i in range(5)` at line 254). -/
def jitterCorrCalls (opt : OptCall → List ℚ) : List OptCall :=
  (jitterRounds opt 5).1

/-- C7: the jitter correction iterates exactly 5 rounds; in every round each
of the 5 coefficients is constrained to the interval [-15, 15]; the first
round's optimizer starts from the initial guess (3, 3, 3, 3, 3) and every
later round starts from the previous round's fitted solution. -/
theorem C7_confirmed (opt : OptCall → List ℚ) :
    jitterCorrCalls opt =
      [⟨[3, 3, 3, 3, 3], List.replicate 5 (-15, 15)⟩,
       ⟨opt ⟨[3, 3, 3, 3, 3], List.replicate 5 (-15, 15)⟩, List.replicate 5 (-15, 15)⟩,
       ⟨opt ⟨opt ⟨[3, 3, 3, 3, 3], List.replicate 5 (-15, 15)⟩,
          List.replicate 5 (-15, 15)⟩, List.replicate 5 (-15, 15)⟩,
       ⟨opt ⟨opt ⟨opt ⟨[3, 3, 3, 3, 3], List.replicate 5 (-15, 15)⟩,
          List.replicate 5 (-15, 15)⟩, List.replicate 5 (-15, 15)⟩,
          List.replicate 5 (-15, 15)⟩,
       ⟨opt ⟨opt ⟨opt ⟨opt ⟨[3, 3, 3, 3, 3], List.replicate 5 (-15, 15)⟩,
          List.replicate 5 (-15, 15)⟩, List.replicate 5 (-15, 15)⟩,
          List.replicate 5 (-15, 15)⟩, List.replicate 5 (-15, 15)⟩] := by
  rfl

/-! ### Aperture catalog (`create_apertures`, lines 103-143) -/

/-- The embedding of `np.arange(start, stop, step)` for a positive rational
step: `start + i*step` for `i` below `ceil((stop - start)/step)`. -/
def npArange (start stop step : ℚ) : List ℚ :=
  (List.range (Int.toNat ⌈(stop - start) / step⌉)).map
    (fun i => start + (i : ℚ) * step)

/-- The pixel-weighting method passed to `photutils` (`method=` keyword). -/
inductive ApMethod
  | center
  | exact
deriving DecidableEq

/-- A photutils aperture as constructed by the source: `CircularAperture(pos, r)`
or `RectangularAperture(pos, l, w, t)`.  Rasterization to a mask image is an
external photutils call, so candidates are kept as descriptors. -/
inductive ApShapeSpec
  | circle (pos : ℚ × ℚ) (r : ℚ)
  | rectangle (pos : ℚ × ℚ) (l w t : ℚ)
deriving DecidableEq

/-- One entry of `self.all_apertures`: the aperture, the weighting method,
and the image shape (`np.shape(self.tpf[0])`) that `to_image` rasterizes to. -/
structure ApEntry where
  shape : ApShapeSpec
  method : ApMethod
  imgShape : ℕ × ℕ
deriving DecidableEq

/-- Lines 128-143 of `targetdata.py`: `r_list = np.arange(1.5, 4, 0.5)`; for
each `r` a circle `(4,4),r` and a rectangle `(4,4),r,r,0.0` are built, and
for each method in `['center', 'exact']` the circle mask then the rectangle
mask are appended to `self.all_apertures`. -/
def createApertures (imgShape : ℕ × ℕ) : List ApEntry :=
  (npArange (3 / 2) 4 (1 / 2)).flatMap (fun r =>
    ([ApMethod.center, ApMethod.exact]).flatMap (fun m =>
      [⟨ApShapeSpec.circle (4, 4) r, m, imgShape⟩,
       ⟨ApShapeSpec.rectangle (4, 4) r r 0, m, imgShape⟩]))

/-- C8: for the fixed 9x9 cutout geometry, `create_apertures` produces an
ordered catalog of exactly 20 candidate masks: for each radius r in
{1.5, 2.0, 2.5, 3.0, 3.5} and each weighting method in {center, exact}, one
circle mask of radius r and one rectangle mask of size r x r at rotation 0,
all rasterized to the cutout's spatial shape. -/
theorem C8_confirmed :
    createApertures (9, 9) =
      [⟨ApShapeSpec.circle (4, 4) (3 / 2), ApMethod.center, (9, 9)⟩,
       ⟨ApShapeSpec.rectangle (4, 4) (3 / 2) (3 / 2) 0, ApMethod.center, (9, 9)⟩,
       ⟨ApShapeSpec.circle (4, 4) (3 / 2), ApMethod.exact, (9, 9)⟩,
       ⟨ApShapeSpec.rectangle (4, 4) (3 / 2) (3 / 2) 0, ApMethod.exact, (9, 9)⟩,
       ⟨ApShapeSpec.circle (4, 4) 2, ApMethod.center, (9, 9)⟩,
       ⟨ApShapeSpec.rectangle (4, 4) 2 2 0, ApMethod.center, (9, 9)⟩,
       ⟨ApShapeSpec.circle (4, 4) 2, ApMethod.exact, (9, 9)⟩,
       ⟨ApShapeSpec.rectangle (4, 4) 2 2 0, ApMethod.exact, (9, 9)⟩,
       ⟨ApShapeSpec.circle (4, 4) (5 / 2), ApMethod.center, (9, 9)⟩,
       ⟨ApShapeSpec.rectangle (4, 4) (5 / 2) (5 / 2) 0, ApMethod.center, (9, 9)⟩,
       ⟨ApShapeSpec.circle (4, 4) (5 / 2), ApMethod.exact, (9, 9)⟩,
       ⟨ApShapeSpec.rectangle (4, 4) (5 / 2) (5 / 2) 0, ApMethod.exact, (9, 9)⟩,
       ⟨ApShapeSpec.circle (4, 4) 3, ApMethod.center, (9, 9)⟩,
       ⟨ApShapeSpec.rectangle (4, 4) 3 3 0, ApMethod.center, (9, 9)⟩,
       ⟨ApShapeSpec.circle (4, 4) 3, ApMethod.exact, (9, 9)⟩,
       ⟨ApShapeSpec.rectangle (4, 4) 3 3 0, ApMethod.exact, (9, 9)⟩,
       ⟨ApShapeSpec.circle (4, 4) (7 / 2), ApMethod.center, (9, 9)⟩,
       ⟨ApShapeSpec.rectangle (4, 4) (7 / 2) (7 / 2) 0, ApMethod.center, (9, 9)⟩,
       ⟨ApShapeSpec.circle (4, 4) (7 / 2), ApMethod.exact, (9, 9)⟩,
       ⟨ApShapeSpec.rectangle (4, 4) (7 / 2) (7 / 2) 0, ApMethod.exact, (9, 9)⟩] := by
  have hc : ⌈(((4 : ℚ) - 3 / 2) / (1 / 2))⌉ = (5 : ℤ) := by norm_num
  have hn : Int.toNat ⌈(((4 : ℚ) - 3 / 2) / (1 / 2))⌉ = 5 := by rw [hc]; simp
  rw [createApertures, npArange, hn]
  norm_num [List.range_succ]

end EasyClaims

/-- Value of `((List.range n).map f).getD t d` at an index inside the range. -/
lemma getD_range_map {β : Type} (f : ℕ → β) (n t : ℕ) (d : β) (ht : t < n) :
    ((List.range n).map f).getD t d = f t := by
  rw [List.getD_eq_getElem _ _ (by simpa using ht)]
  simp

section JitterFactor

/-! ### The quadratic factor of `jitter_corr` (lines 247-250 and line 272) -/

/-- The 5 fitted coefficients `c1, c2, c3, c4, c5`. -/
structure Coeffs where
  c1 : ℚ
  c2 : ℚ
  c3 : ℚ
  c4 : ℚ
  c5 : ℚ
deriving DecidableEq

/-- The quadratic correction factor of `jitter_corr` as the source writes it
at line 249 and again at line 272:
`c1 + c2*(x-2.5) + c3*(x-2.5)**2 + c4*(y-2.5) + c5*(y-2.5)**2`.
The centering constant in the source is 2.5. -/
def corrFactor (c : Coeffs) (x y : ℚ) : ℚ :=
  c.c1 + c.c2 * (x - 5 / 2) + c.c3 * (x - 5 / 2) ^ 2 + c.c4 * (y - 5 / 2) +
    c.c5 * (y - 5 / 2) ^ 2

/-- Modelled from the spec: the same quadratic factor with the centering
constants `x0 = y0` fixed at the cutout half-width 4.0, as the spec states
for the 9x9 reference geometry.  Kept separate from `corrFactor` (the source
formula) so the two can be compared. -/
def corrFactorSpec (c : Coeffs) (x y : ℚ) : ℚ :=
  c.c1 + c.c2 * (x - 4) + c.c3 * (x - 4) ^ 2 + c.c4 * (y - 4) + c.c5 * (y - 4) ^ 2

/-- Lines 247-250 of `targetdata.py`, the objective handed to
`scipy.optimize.minimize`:
`f_corr = f_obs * (c1 + c2*(x-2.5) + c3*(x-2.5)**2 + c4*(y-2.5) + c5*(y-2.5)**2)`;
`return np.sum(((1-f_corr)/y_err)**2)`.  Literal translation, polynomial
inline exactly as in the source. -/
def parabolaObj (c : Coeffs) (x y fobs yerr : List ℚ) : ℚ :=
  ((List.range fobs.length).map (fun t =>
    ((1 - fobs.getD t 0 *
        (c.c1 + c.c2 * (x.getD t 0 - 5 / 2) + c.c3 * (x.getD t 0 - 5 / 2) ^ 2 +
          c.c4 * (y.getD t 0 - 5 / 2) + c.c5 * (y.getD t 0 - 5 / 2) ^ 2)) /
      yerr.getD t 1) ^ 2)).sum

/-- Line 272 of `targetdata.py`:
`lc_new = lc * (c1 + c2*(x_pos-2.5) + c3*(x_pos-2.5)**2 + c4*(y_pos-2.5) + c5*(y_pos-2.5)**2)`.
Literal translation, polynomial inline exactly as in the source. -/
def lcNewRound (lc xs ys : List ℚ) (c : Coeffs) : List ℚ :=
  (List.range lc.length).map (fun t =>
    lc.getD t 0 *
      (c.c1 + c.c2 * (xs.getD t 0 - 5 / 2) + c.c3 * (xs.getD t 0 - 5 / 2) ^ 2 +
        c.c4 * (ys.getD t 0 - 5 / 2) + c.c5 * (ys.getD t 0 - 5 / 2) ^ 2))

/-- C3 counterexample: the claim fixes the centering constants at 4.0, but
with coefficients (0,1,0,0,0) at centroid (2.5, 0) the factor applied by the
code is 0 while the 4.0-centered factor of the claim is -3/2; the corrected
flux at that cadence differs accordingly. -/
theorem C3_counterexample :
    corrFactor ⟨0, 1, 0, 0, 0⟩ (5 / 2) 0 = 0 ∧
    corrFactorSpec ⟨0, 1, 0, 0, 0⟩ (5 / 2) 0 = -(3 / 2) ∧
    lcNewRound [1] [5 / 2] [0] ⟨0, 1, 0, 0, 0⟩ ≠
      [1 * corrFactorSpec ⟨0, 1, 0, 0, 0⟩ (5 / 2) 0] := by
  refine ⟨by norm_num [corrFactor], by norm_num [corrFactorSpec], ?_⟩
  have hL : lcNewRound [1] [5 / 2] [0] ⟨0, 1, 0, 0, 0⟩ = [0] := by
    norm_num [lcNewRound, List.range_succ]
  have hR : ((1 : ℚ)) * corrFactorSpec ⟨0, 1, 0, 0, 0⟩ (5 / 2) 0 = -(3 / 2) := by
    norm_num [corrFactorSpec]
  rw [hL, hR]
  intro hEq
  have : (0 : ℚ) = -(3 / 2) := by injection hEq
  norm_num at this

/-- C3 amended: the quadratic correction factor applied to the flux is
`c1 + c2*(x-x0) + c3*(x-x0)^2 + c4*(y-y0) + c5*(y-y0)^2` with the centering
constants `x0` and `y0` both fixed at 2.5 (not at the cutout half-width 4.0):
both occurrences of the polynomial in `jitter_corr` (the optimizer objective
of line 249 and the light-curve recompute of line 272) equal the 2.5-centered
quadratic `corrFactor`. -/
theorem C3_corrected_amended (c : Coeffs) (lc xs ys fobs yerr : List ℚ) (t : ℕ) :
    (lcNewRound lc xs ys c).getD t 0 =
      lc.getD t 0 * corrFactor c (xs.getD t 0) (ys.getD t 0) ∧
    parabolaObj c xs ys fobs yerr =
      ((List.range fobs.length).map (fun s =>
        ((1 - fobs.getD s 0 * corrFactor c (xs.getD s 0) (ys.getD s 0)) /
          yerr.getD s 1) ^ 2)).sum := by
  constructor
  · by_cases ht : t < lc.length
    · rw [lcNewRound, getD_range_map _ _ _ _ ht]
      rfl
    · push_neg at ht
      rw [lcNewRound, List.getD_eq_default, List.getD_eq_default _ _ ht]
      · ring
      · simpa using ht
  · rfl

end JitterFactor

section CustomAperture

/-! ### `custom_aperture` (lines 203-236) -/

/-- Message printed at line 221 of `targetdata.py` (quotes elided). -/
def radiusMsg : String := "Please set a radius (in pixels) for your aperture"

/-- Message printed at line 229 of `targetdata.py` (quotes elided). -/
def rectMsg : String :=
  "For a rectangular aperture, please set both length and width: custom_aperture(shape=rectangle, l=#, w=#)"

/-- Message printed at line 235 of `targetdata.py` (quotes elided). -/
def shapeMsg : String := "Aperture shape not recognized. Please set shape == circle or rectangle"

/-- Outcome of `custom_aperture`.  The source either builds a photutils
aperture and rasterizes it (`mask`), or prints a message and leaves
`self.custom_aperture = None` (`printMsg`).  The two error constructors are
never produced by the source; they exist so that the spec claim C4, which
demands typed errors, can be stated against this embedding. -/
inductive CustomApResult
  | mask (shape : ApShapeSpec) (method : String)
  | printMsg (msg : String)
  | errInvalidParams (field : String)
  | errUnsupportedShape (shape : String)
deriving DecidableEq

/-- The embedding of Python `str.lower()`: lowercase every character.
(`String.toLower` itself is defined by position recursion that the kernel
cannot evaluate, so the character-list form is used.) -/
def pyLower (s : String) : String := ⟨s.data.map Char.toLower⟩

/-- Lines 203-236 of `targetdata.py`: `shape = shape.lower()`; for `circle`,
`r == 0.0` prints `radiusMsg`, otherwise a `CircularAperture(pos, r)` mask is
built; for `rectangle`, `l == 0.0 or w == 0.0` prints `rectMsg`, otherwise a
`RectangularAperture(pos, l, w, theta)` mask is built; any other shape prints
`shapeMsg`.  No exception is ever raised. -/
def customAperture (shape : String) (r l w theta : ℚ) (pos : ℚ × ℚ)
    (method : String) : CustomApResult :=
  let s := pyLower shape
  if s = "circle" then
    if r = 0 then CustomApResult.printMsg radiusMsg
    else CustomApResult.mask (ApShapeSpec.circle pos r) method
  else if s = "rectangle" then
    if l = 0 ∨ w = 0 then CustomApResult.printMsg rectMsg
    else CustomApResult.mask (ApShapeSpec.rectangle pos l w theta) method
  else CustomApResult.printMsg shapeMsg

/-- True exactly on the `errInvalidParams` constructor. -/
def isInvalidParamsErr : CustomApResult → Bool
  | CustomApResult.errInvalidParams _ => true
  | _ => false

/-- True exactly on the `errUnsupportedShape` constructor. -/
def isUnsupportedShapeErr : CustomApResult → Bool
  | CustomApResult.errUnsupportedShape _ => true
  | _ => false

/-- C4 counterexample: `custom_aperture(shape='circle', r=0)` does not fail
with `InvalidApertureParametersError` and `custom_aperture(shape='triangle')`
does not fail with `UnsupportedShapeError`: both print a message and leave
the custom aperture unset, the silent no-op the claim rules out. -/
theorem C4_counterexample :
    customAperture "circle" 0 0 0 0 (4, 4) "exact" = CustomApResult.printMsg radiusMsg ∧
    isInvalidParamsErr (customAperture "circle" 0 0 0 0 (4, 4) "exact") = false ∧
    customAperture "triangle" 1 1 1 0 (4, 4) "exact" = CustomApResult.printMsg shapeMsg ∧
    isUnsupportedShapeErr (customAperture "triangle" 1 1 1 0 (4, 4) "exact") = false := by
  have hc : pyLower "circle" = "circle" := by decide
  have ht1 : pyLower "triangle" ≠ "circle" := by decide
  have ht2 : pyLower "triangle" ≠ "rectangle" := by decide
  have h1 : customAperture "circle" 0 0 0 0 (4, 4) "exact" = CustomApResult.printMsg radiusMsg := by
    simp [customAperture, hc]
  have h2 : customAperture "triangle" 1 1 1 0 (4, 4) "exact" = CustomApResult.printMsg shapeMsg := by
    simp [customAperture, ht1, ht2]
  exact ⟨h1, by rw [h1]; rfl, h2, by rw [h2]; rfl⟩

/-- C4 amended: on a circle of radius 0, `custom_aperture` prints the radius
message and leaves the custom aperture unset; on a rectangle with length 0 or
width 0 it prints the rectangle message; on any shape other than circle or
rectangle it prints the unrecognized-shape message; in all three cases no
mask is produced and no exception of any kind is raised. -/
theorem C4_corrected_amended (r l w theta : ℚ) (pos : ℚ × ℚ) (method : String)
    (s : String) (hs1 : pyLower s ≠ "circle") (hs2 : pyLower s ≠ "rectangle")
    (hlw : l = 0 ∨ w = 0) :
    customAperture "circle" 0 l w theta pos method = CustomApResult.printMsg radiusMsg ∧
    customAperture "rectangle" r l w theta pos method = CustomApResult.printMsg rectMsg ∧
    customAperture s r l w theta pos method = CustomApResult.printMsg shapeMsg := by
  have hc : pyLower "circle" = "circle" := by decide
  have hr1 : pyLower "rectangle" ≠ "circle" := by decide
  have hr2 : pyLower "rectangle" = "rectangle" := by decide
  refine ⟨by simp [customAperture, hc], ?_, ?_⟩
  · simp [customAperture, hr1, hr2, hlw]
  · simp [customAperture, hs1, hs2]

/-- Concrete instance of `C4_corrected_amended` at radius 0, length 0 and
shape `triangle`. -/
theorem C4_corrected_amended_witness :
    customAperture "circle" 0 0 1 0 (4, 4) "exact" = CustomApResult.printMsg radiusMsg ∧
    customAperture "rectangle" 1 0 1 0 (4, 4) "exact" = CustomApResult.printMsg rectMsg ∧
    customAperture "triangle" 1 0 1 0 (4, 4) "exact" = CustomApResult.printMsg shapeMsg :=
  C4_corrected_amended 1 0 1 0 (4, 4) "exact" "triangle"
    (by decide) (by decide) (Or.inl rfl)

end CustomAperture

section CustomLightcurvePath

/-! ### The custom-mask path of `get_lightcurve` (lines 187-197) -/

/-- The local variables of the custom-mask branch of `get_lightcurve`.
The branch binds `lc` (line 191, `lc = np.zeros(len(self.tpf))`); the names
`lc_err` (line 194) and `mask` (line 197) are never bound in that scope, so
they start as `none` and stay `none`. -/
structure CustomPathLocals where
  lc : Option (List ℚ)
  lc_err : Option (List ℚ)
  maskVar : Option Img

/-- The result attributes `self.flux`, `self.flux_err`, `self.aperture`,
each `none` until assigned (lines 161-163 set them to `None` on entry). -/
structure LCFields where
  flux : Option (List ℚ)
  flux_err : Option (List ℚ)
  aperture : Option Img

/-- One iteration of the loop at lines 192-194.  Python evaluates
`lc[cad] = np.sum(tpf[cad] * custom_aperture)` (needs the binding of `lc`),
then `lc_err[cad] = np.sum(tpf_err[cad] * custom_aperture)` (needs the
binding of `lc_err`); looking up an unbound name raises `NameError`. -/
def customLoopStep (tpf tpfErr : List Img) (customAp : Img) (cad : ℕ)
    (env : CustomPathLocals) : Except String CustomPathLocals :=
  match env.lc with
  | none => Except.error "lc"
  | some lcv =>
    let env1 : CustomPathLocals :=
      { env with lc := some (lcv.set cad (sumImg2 (tpf.getD cad []) customAp)) }
    match env1.lc_err with
    | none => Except.error "lc_err"
    | some ev =>
      Except.ok { env1 with
        lc_err := some (ev.set cad (sumImg2 (tpfErr.getD cad []) customAp)) }

/-- The `for cad in range(len(self.tpf))` loop, stopping at the first
`NameError`. -/
def customLoop (tpf tpfErr : List Img) (customAp : Img) :
    List ℕ → CustomPathLocals → Except String CustomPathLocals
  | [], env => Except.ok env
  | cad :: rest, env =>
    match customLoopStep tpf tpfErr customAp cad env with
    | Except.error n => Except.error n
    | Except.ok env2 => customLoop tpf tpfErr customAp rest env2

/-- Lines 187-197 of `targetdata.py`, the custom-mask path with a defined
custom aperture: run the per-cadence loop, then execute `self.flux = lc`,
`self.flux_err = lc_err`, `self.aperture = mask` in order, stopping at the
first unbound name.  Returns the final attribute values and the name whose
lookup raised `NameError`, if any. -/
def getLightcurveCustom (tpf tpfErr : List Img) (customAp : Img) :
    LCFields × Option String :=
  let env0 : CustomPathLocals :=
    { lc := some (List.replicate tpf.length 0), lc_err := none, maskVar := none }
  match customLoop tpf tpfErr customAp (List.range tpf.length) env0 with
  | Except.error n => (⟨none, none, none⟩, some n)
  | Except.ok env =>
    match env.lc with
    | none => (⟨none, none, none⟩, some "lc")
    | some l =>
      match env.lc_err with
      | none => (⟨some l, none, none⟩, some "lc_err")
      | some le =>
        match env.maskVar with
        | none => (⟨some l, some le, none⟩, some "mask")
        | some m => (⟨some l, some le, some m⟩, none)

/-- C10: on the custom-mask path with a custom aperture defined and a
non-empty cutout sequence, the per-cadence loop raises `NameError` for the
unbound local `lc_err` already at the first cadence, and `self.flux`,
`self.flux_err` and `self.aperture` are never assigned. -/
theorem C10_confirmed (tpf tpfErr : List Img) (customAp : Img) (h : tpf ≠ []) :
    getLightcurveCustom tpf tpfErr customAp = (⟨none, none, none⟩, some "lc_err") ∧
    customLoopStep tpf tpfErr customAp 0
      { lc := some (List.replicate tpf.length 0), lc_err := none, maskVar := none } =
      Except.error "lc_err" := by
  obtain ⟨x, xs, rfl⟩ : ∃ x xs, tpf = x :: xs := by
    cases tpf with
    | nil => exact absurd rfl h
    | cons x xs => exact ⟨x, xs, rfl⟩
  constructor
  · rw [getLightcurveCustom]
    have hr : List.range (x :: xs : List Img).length =
        0 :: (List.range xs.length).map Nat.succ := by
      rw [List.length_cons, List.range_succ_eq_map]
    rw [hr]
    rfl
  · rfl

/-- Concrete instance of `C10_confirmed` on a one-cadence 1x1 cutout. -/
theorem C10_confirmed_witness :
    getLightcurveCustom [[[1]]] [[[1]]] [[1]] = (⟨none, none, none⟩, some "lc_err") ∧
    customLoopStep [[[1]]] [[[1]]] [[1]] 0
      { lc := some (List.replicate ([[[(1 : ℚ)]]] : List Img).length 0),
        lc_err := none, maskVar := none } =
      Except.error "lc_err" :=
  C10_confirmed [[[1]]] [[[1]]] [[1]] (by simp)

end CustomLightcurvePath

section Photometry

/-! ### Photometry evaluation (`get_lightcurve`, lines 174-177) -/

/-- A zipWith-product sum over two equal-length rows is the index-wise
finite sum. -/
lemma zipWith_mul_sum (a b : List ℚ) (h : a.length = b.length) :
    (List.zipWith (fun x y => x * y) a b).sum =
      ∑ j in Finset.range a.length, a.getD j 0 * b.getD j 0 := by
  induction a generalizing b with
  | nil => simp
  | cons x xs ih =>
    cases b with
    | nil => simp at h
    | cons y ys =>
      have h2 : xs.length = ys.length := by simpa using h
      simp only [List.zipWith_cons_cons, List.sum_cons, List.length_cons]
      rw [Finset.sum_range_succ']
      simp only [List.getD_cons_succ, List.getD_cons_zero]
      rw [ih ys h2]
      ring

/-- `sumImg2` over two equally shaped 2D arrays is the pixel-wise double
finite sum. -/
lemma sumImg2_eq_sum (a b : Img) (h : a.length = b.length)
    (hrow : ∀ i, i < a.length → (a.getD i []).length = (b.getD i []).length) :
    sumImg2 a b = ∑ i in Finset.range a.length,
      ∑ j in Finset.range ((a.getD i []).length), entry a i j * entry b i j := by
  induction a generalizing b with
  | nil => simp [sumImg2]
  | cons ra ras ih =>
    cases b with
    | nil => simp at h
    | cons rb rbs =>
      have h2 : ras.length = rbs.length := by simpa using h
      have hrow0 : ra.length = rb.length := by simpa using hrow 0 (by simp)
      have hrow2 : ∀ i, i < ras.length →
          (ras.getD i []).length = (rbs.getD i []).length := by
        intro i hi
        simpa using hrow (i + 1) (by simpa using Nat.succ_lt_succ hi)
      have hhead := zipWith_mul_sum ra rb hrow0
      have htail := ih rbs h2 hrow2
      rw [sumImg2] at htail
      simp only [sumImg2, List.zipWith_cons_cons, List.sum_cons, List.length_cons]
      rw [Finset.sum_range_succ', hhead, htail]
      simp only [entry, List.getD_cons_succ, List.getD_cons_zero]
      exact add_comm _ _

/-- Elementwise squaring of a row commutes with indexed access (default 0). -/
lemma getD_map_sq (row : List ℚ) (j : ℕ) :
    (row.map (fun x => x ^ 2)).getD j 0 = (row.getD j 0) ^ 2 := by
  induction row generalizing j with
  | nil => simp
  | cons x xs ih =>
    cases j with
    | zero => simp
    | succ n => simpa using ih n

/-- Elementwise squaring of a 2D array preserves row lengths. -/
lemma sqImg_getD_length (e : Img) (i : ℕ) :
    ((e.map (fun row => row.map (fun x => x ^ 2))).getD i []).length =
      (e.getD i []).length := by
  induction e generalizing i with
  | nil => simp
  | cons r rs ih =>
    cases i with
    | zero => simp
    | succ n => simpa using ih n

/-- Elementwise squaring of a 2D array squares each pixel read. -/
lemma entry_sqImg (e : Img) (i j : ℕ) :
    entry (e.map (fun row => row.map (fun x => x ^ 2))) i j = (entry e i j) ^ 2 := by
  induction e generalizing i with
  | nil => simp [entry]
  | cons r rs ih =>
    cases i with
    | zero =>
      show (List.map (fun x => x ^ 2) r).getD j 0 = (r.getD j 0) ^ 2
      exact getD_map_sq r j
    | succ n => simpa [entry] using ih n

/-- C1 counterexample: with error image [[2]] and mask [[1/2]], line 176
yields `sqrt(2**2 * (1/2)) = sqrt 2`, while the spec formula with the mask
squared yields `sqrt(2**2 * (1/2)**2) = 1`.  The code multiplies by the mask,
not by the squared mask. -/
theorem C1_counterexample :
    Real.sqrt ((fluxErrSqAt [[[2]]] [[1 / 2]] 0 : ℚ) : ℝ) ≠
      Real.sqrt ((fluxErrSqSpecAt [[[2]]] [[1 / 2]] 0 : ℚ) : ℝ) := by
  have h1 : fluxErrSqAt [[[2]]] [[1 / 2]] 0 = 2 := by
    norm_num [fluxErrSqAt, sumImg2]
  have h2 : fluxErrSqSpecAt [[[2]]] [[1 / 2]] 0 = 1 := by
    norm_num [fluxErrSqSpecAt, sumImg2]
  rw [h1, h2]
  intro hEq
  have e1 : Real.sqrt (((2 : ℚ) : ℝ)) ^ 2 = ((2 : ℚ) : ℝ) := Real.sq_sqrt (by norm_num)
  have e2 : Real.sqrt (((1 : ℚ) : ℝ)) ^ 2 = ((1 : ℚ) : ℝ) := Real.sq_sqrt (by norm_num)
  have h3 : Real.sqrt (((2 : ℚ) : ℝ)) ^ 2 = Real.sqrt (((1 : ℚ) : ℝ)) ^ 2 := by rw [hEq]
  rw [e1, e2] at h3
  norm_num at h3

/-- C1 amended: at each cadence `t` the flux is the sum over pixels of
`cutout[t]` times the mask weight, and the flux error is the square root of
the sum over pixels of `error[t]` squared times the mask weight to the FIRST
power (the source does not square the mask in the error propagation). -/
theorem C1_corrected_amended (tpf tpfErr : List Img) (ap : Img) (t : ℕ)
    (hlen : (tpf.getD t []).length = ap.length)
    (hrow : ∀ i, i < (tpf.getD t []).length →
      ((tpf.getD t []).getD i []).length = (ap.getD i []).length)
    (hlenE : (tpfErr.getD t []).length = ap.length)
    (hrowE : ∀ i, i < (tpfErr.getD t []).length →
      ((tpfErr.getD t []).getD i []).length = (ap.getD i []).length) :
    fluxAt tpf ap t = (∑ i in Finset.range (tpf.getD t []).length,
        ∑ j in Finset.range ((tpf.getD t []).getD i []).length,
          entry (tpf.getD t []) i j * entry ap i j) ∧
    Real.sqrt ((fluxErrSqAt tpfErr ap t : ℚ) : ℝ) =
      Real.sqrt (((∑ i in Finset.range (tpfErr.getD t []).length,
        ∑ j in Finset.range ((tpfErr.getD t []).getD i []).length,
          (entry (tpfErr.getD t []) i j) ^ 2 * entry ap i j : ℚ) : ℝ)) := by
  constructor
  · exact sumImg2_eq_sum _ _ hlen hrow
  · have hq : fluxErrSqAt tpfErr ap t =
        ∑ i in Finset.range (tpfErr.getD t []).length,
          ∑ j in Finset.range ((tpfErr.getD t []).getD i []).length,
            (entry (tpfErr.getD t []) i j) ^ 2 * entry ap i j := by
      rw [fluxErrSqAt, sumImg2_eq_sum]
      · simp only [entry_sqImg, sqImg_getD_length, List.length_map]
      · simpa using hlenE
      · intro i hi
        rw [sqImg_getD_length]
        exact hrowE i (by simpa using hi)
    rw [hq]

/-- Concrete instance of `C1_corrected_amended` on a one-cadence 1x1 cutout. -/
theorem C1_corrected_amended_witness :
    fluxAt [[[3]]] [[2]] 0 = (∑ i in Finset.range 1, ∑ j in Finset.range 1,
      entry (([[[3]]] : List Img).getD 0 []) i j * entry [[2]] i j) ∧
    Real.sqrt ((fluxErrSqAt [[[4]]] [[2]] 0 : ℚ) : ℝ) =
      Real.sqrt (((∑ i in Finset.range 1, ∑ j in Finset.range 1,
        (entry (([[[4]]] : List Img).getD 0 []) i j) ^ 2 * entry [[2]] i j : ℚ) : ℝ)) :=
  C1_corrected_amended [[[3]]] [[[4]]] [[2]] 0 (by simp)
    (by
      intro i hi
      have hi0 : i = 0 := Nat.lt_one_iff.mp (by simpa using hi)
      subst hi0
      simp)
    (by simp)
    (by
      intro i hi
      have hi0 : i = 0 := Nat.lt_one_iff.mp (by simpa using hi)
      subst hi0
      simp)

end Photometry

section Selection

/-! ### Best-aperture selection (`get_lightcurve`, lines 170-185) -/

/-- First index at which the predicate holds, numpy
`np.where(cond)[0][0]`: `none` when no index matches, in which case the
indexing `[0]` into the empty match array raises `IndexError`. -/
def whereFirst {α : Type} (p : α → Bool) : List α → Option ℕ
  | [] => none
  | x :: xs => if p x then some 0 else (whereFirst p xs).map (fun i => i + 1)

/-- Minimum of a list of rationals by left fold (`np.min` of a non-empty
array; the source applies it to `stds`, which has one entry per catalog
aperture, so it is never empty there). -/
def listMinQ : List ℚ → ℚ
  | [] => 0
  | x :: xs => xs.foldl min x

/-- A numpy floating-point score as far as the selection logic observes it:
`none` stands for NaN (`np.std` of an empty flux series), `some v` carries
the SQUARE of the standard deviation.  The squared encoding preserves every
comparison the selection makes, because squaring is injective and monotone
on the nonnegative reals (see `sqrt_cast_inj` below and the bridging in
`C2_confirmed`). -/
def npStdSq (xs : List ℚ) : Option ℚ :=
  if xs.isEmpty then none else some (popVar xs)

/-- Numpy elementwise equality against a scalar: NaN compares unequal to
everything, itself included. -/
def npEqOpt : Option ℚ → Option ℚ → Bool
  | some a, some b => decide (a = b)
  | _, _ => false

/-- `np.min` over possibly-NaN scores: NaN propagates. -/
def npMinOpt (l : List (Option ℚ)) : Option ℚ :=
  if l.any (fun s => s.isNone) then none else some (listMinQ (l.filterMap id))

/-- Outcome of `best_ind = np.where(stds == np.min(stds))[0][0]` (line 182).
The constructor `noValidApertureError` is never produced by the source; it
exists so the spec claim C5, which demands that error, can be stated against
this embedding. -/
inductive SelOutcome
  | ok (i : ℕ)
  | indexError
  | noValidApertureError
deriving DecidableEq

/-- Line 178: `stds.append(np.std(all_lc[a]))`, one score per aperture
(squared-std encoding, see `npStdSq`). -/
def stdsOf (tpf : List Img) (aps : List Img) : List (Option ℚ) :=
  aps.map (fun a => npStdSq (allLC tpf a))

/-- Line 182: `best_ind = np.where(stds == np.min(stds))[0][0]`. -/
def selectBestIndex (stds : List (Option ℚ)) : SelOutcome :=
  match whereFirst (fun s => npEqOpt s (npMinOpt stds)) stds with
  | some i => SelOutcome.ok i
  | none => SelOutcome.indexError

/-- Lines 170-185, the selection part of `get_lightcurve`: compute every
candidate light curve, score each by `np.std`, and pick `best_ind`. -/
def selectResult (tpf : List Img) (aps : List Img) : SelOutcome :=
  selectBestIndex (stdsOf tpf aps)

/-- `whereFirst` finds nothing exactly when the predicate holds nowhere. -/
lemma whereFirst_eq_none {α : Type} (p : α → Bool) (l : List α) :
    whereFirst p l = none ↔ ∀ x ∈ l, p x = false := by
  induction l with
  | nil => simp [whereFirst]
  | cons x xs ih =>
    cases hx : p x with
    | true => simp [whereFirst, hx]
    | false => simp [whereFirst, hx, Option.map_eq_none', ih]

/-- What a successful `whereFirst` guarantees: the index is in range, the
predicate holds there, and at no earlier index. -/
lemma whereFirst_some {α : Type} (p : α → Bool) (l : List α) (i : ℕ) (d : α)
    (h : whereFirst p l = some i) :
    i < l.length ∧ p (l.getD i d) = true ∧ ∀ j, j < i → p (l.getD j d) = false := by
  induction l generalizing i with
  | nil => simp [whereFirst] at h
  | cons x xs ih =>
    cases hx : p x with
    | true =>
      rw [whereFirst, if_pos hx] at h
      obtain rfl : (0 : ℕ) = i := by injection h
      exact ⟨by simp, by simpa using hx, by omega⟩
    | false =>
      rw [whereFirst, if_neg (by simp [hx])] at h
      obtain ⟨i2, hi2, rfl⟩ := Option.map_eq_some'.mp h
      obtain ⟨h1, h2, h3⟩ := ih i2 hi2
      refine ⟨by simpa using Nat.succ_lt_succ h1, by simpa using h2, ?_⟩
      intro j hj
      cases j with
      | zero => simpa using hx
      | succ j2 => simpa using h3 j2 (by omega)

/-- A left fold by `min` does not exceed its initial accumulator. -/
lemma foldl_min_le_init (xs : List ℚ) (x : ℚ) : xs.foldl min x ≤ x := by
  induction xs generalizing x with
  | nil => simp
  | cons z zs ih => exact le_trans (ih (min x z)) (min_le_left x z)

/-- A left fold by `min` does not exceed any list element. -/
lemma foldl_min_le_mem (xs : List ℚ) (x : ℚ) : ∀ y ∈ xs, xs.foldl min x ≤ y := by
  induction xs generalizing x with
  | nil => simp
  | cons z zs ih =>
    intro y hy
    rcases List.mem_cons.mp hy with rfl | hy2
    · exact le_trans (foldl_min_le_init zs (min x y)) (min_le_right x y)
    · exact ih (min x z) y hy2

/-- A left fold by `min` is one of the folded values. -/
lemma foldl_min_mem (xs : List ℚ) (x : ℚ) : xs.foldl min x ∈ x :: xs := by
  induction xs generalizing x with
  | nil => simp
  | cons z zs ih =>
    simp only [List.foldl_cons, List.mem_cons]
    have h := ih (min x z)
    rcases List.mem_cons.mp h with heq | hmem
    · rcases min_choice x z with h1 | h1
      · left
        rw [heq, h1]
      · right
        left
        rw [heq, h1]
    · right
      right
      exact hmem

/-- `listMinQ` of a non-empty list is a lower bound of the list. -/
lemma listMinQ_le (l : List ℚ) (hl : l ≠ []) : ∀ y ∈ l, listMinQ l ≤ y := by
  cases l with
  | nil => exact absurd rfl hl
  | cons x xs =>
    intro y hy
    rcases List.mem_cons.mp hy with rfl | hy2
    · exact foldl_min_le_init xs y
    · exact foldl_min_le_mem xs x y hy2

/-- `listMinQ` of a non-empty list is attained. -/
lemma listMinQ_mem (l : List ℚ) (hl : l ≠ []) : listMinQ l ∈ l := by
  cases l with
  | nil => exact absurd rfl hl
  | cons x xs => exact foldl_min_mem xs x

/-- Sums of squared deviations are nonnegative. -/
lemma sqDevSum_nonneg (xs : List ℚ) : 0 ≤ sqDevSum xs := by
  apply List.sum_nonneg
  intro a ha
  obtain ⟨x, hx, rfl⟩ := List.mem_map.mp ha
  positivity

/-- The population variance is nonnegative. -/
lemma popVar_nonneg (xs : List ℚ) : 0 ≤ popVar xs :=
  div_nonneg (sqDevSum_nonneg xs) (Nat.cast_nonneg _)

/-- The sample variance is nonnegative for series of length at least 2. -/
lemma sampleVar_nonneg (xs : List ℚ) (h2 : 2 ≤ xs.length) : 0 ≤ sampleVar xs := by
  apply div_nonneg (sqDevSum_nonneg xs)
  have h : (2 : ℚ) ≤ (xs.length : ℚ) := by exact_mod_cast h2
  linarith

/-- For a series of length at least 2, the sample variance is the population
variance rescaled by the fixed positive factor `n/(n-1)`. -/
lemma sampleVar_eq_popVar_mul (xs : List ℚ) (h2 : 2 ≤ xs.length) :
    sampleVar xs = popVar xs * ((xs.length : ℚ) / ((xs.length : ℚ) - 1)) := by
  have hn : (xs.length : ℚ) ≠ 0 := by
    have : (2 : ℚ) ≤ (xs.length : ℚ) := by exact_mod_cast h2
    linarith
  have hn1 : ((xs.length : ℚ) - 1) ≠ 0 := by
    have : (2 : ℚ) ≤ (xs.length : ℚ) := by exact_mod_cast h2
    linarith
  rw [sampleVar, popVar]
  field_simp

/-- `getD` on a mapped list, inside the range. -/
lemma getD_map_of_lt {α β : Type} (f : α → β) (l : List α) (i : ℕ)
    (hi : i < l.length) (d : α) (d2 : β) : (l.map f).getD i d2 = f (l.getD i d) := by
  rw [List.getD_eq_getElem _ _ (by simpa using hi), List.getD_eq_getElem _ _ hi]
  simp

/-- `filterMap id` undoes `map some`. -/
lemma filterMap_id_map_some (l : List ℚ) : (l.map some).filterMap id = l := by
  induction l with
  | nil => rfl
  | cons x xs ih => simp [ih]

/-- Each candidate light curve has one flux value per cadence. -/
lemma allLC_length (tpf : List Img) (ap : Img) : (allLC tpf ap).length = tpf.length := by
  simp [allLC]

/-- The real square root is injective on casts of nonnegative rationals. -/
lemma sqrt_cast_inj {a b : ℚ} (ha : 0 ≤ a) (hb : 0 ≤ b)
    (h : Real.sqrt ((a : ℚ) : ℝ) = Real.sqrt ((b : ℚ) : ℝ)) : a = b := by
  have hr : ((a : ℚ) : ℝ) = ((b : ℚ) : ℝ) := by
    rw [← Real.sq_sqrt (show (0 : ℝ) ≤ ((a : ℚ) : ℝ) by exact_mod_cast ha),
      ← Real.sq_sqrt (show (0 : ℝ) ≤ ((b : ℚ) : ℝ) by exact_mod_cast hb), h]
  exact_mod_cast hr

/-- Core behavior of the selection on a non-empty cutout sequence: line 182
returns the first index whose (squared) score attains the minimum. -/
lemma selectResult_spec (tpf aps : List Img) (ht : tpf ≠ []) (ha : aps ≠ []) :
    ∃ i, selectResult tpf aps = SelOutcome.ok i ∧ i < aps.length ∧
      (∀ j, j < aps.length →
        popVar (allLC tpf (aps.getD i [])) ≤ popVar (allLC tpf (aps.getD j []))) ∧
      (∀ j, j < i →
        popVar (allLC tpf (aps.getD i [])) < popVar (allLC tpf (aps.getD j []))) := by
  set vars := aps.map (fun a => popVar (allLC tpf a)) with hvars
  have hlenv : vars.length = aps.length := by simp [hvars]
  have hvne : vars ≠ [] := by
    rw [hvars, Ne, List.map_eq_nil_iff]
    exact ha
  set m := listMinQ vars with hm
  have hstds : stdsOf tpf aps = vars.map some := by
    rw [stdsOf, hvars, List.map_map]
    apply List.map_congr_left
    intro a ha2
    have hcons : ∃ y ys, allLC tpf a = y :: ys := by
      rw [allLC]
      cases tpf with
      | nil => exact absurd rfl ht
      | cons c cs =>
        rw [List.length_cons, List.range_succ_eq_map, List.map_cons]
        exact ⟨_, _, rfl⟩
    obtain ⟨y, ys, hys⟩ := hcons
    simp [npStdSq, hys, Function.comp]
  have hmem : m ∈ vars := listMinQ_mem vars hvne
  have hminopt : npMinOpt (stdsOf tpf aps) = some m := by
    rw [hstds, npMinOpt, if_neg (by simp), hm, filterMap_id_map_some]
  have hne_none : whereFirst (fun s => npEqOpt s (npMinOpt (stdsOf tpf aps)))
      (stdsOf tpf aps) ≠ none := by
    intro hnone
    have hall := (whereFirst_eq_none _ _).mp hnone (some m)
      (by
        rw [hstds]
        exact List.mem_map_of_mem some hmem)
    rw [hminopt] at hall
    simp [npEqOpt] at hall
  obtain ⟨i, hi⟩ := Option.ne_none_iff_exists'.mp hne_none
  obtain ⟨hilen0, hip, hibefore⟩ := whereFirst_some _ _ i none hi
  have hslen : (stdsOf tpf aps).length = aps.length := by
    rw [hstds, List.length_map, hlenv]
  rw [hslen] at hilen0
  have hgetD : ∀ j, j < aps.length →
      (stdsOf tpf aps).getD j none = some (vars.getD j 0) := by
    intro j hj
    rw [hstds]
    exact getD_map_of_lt some vars j (by rw [hlenv]; exact hj) 0 none
  rw [hgetD i hilen0, hminopt] at hip
  have hieq : vars.getD i 0 = m := of_decide_eq_true hip
  have hvarsD : ∀ j, j < aps.length →
      vars.getD j 0 = popVar (allLC tpf (aps.getD j [])) := by
    intro j hj
    rw [hvars]
    exact getD_map_of_lt _ aps j hj [] 0
  have hminle : ∀ j, j < aps.length → m ≤ vars.getD j 0 := by
    intro j hj
    apply listMinQ_le vars hvne
    rw [List.getD_eq_getElem _ _ (by rw [hlenv]; exact hj)]
    exact List.getElem_mem _
  refine ⟨i, ?_, hilen0, ?_, ?_⟩
  · rw [selectResult, selectBestIndex, hi]
  · intro j hj
    rw [← hvarsD i hilen0, ← hvarsD j hj, hieq]
    exact hminle j hj
  · intro j hji
    have hjlen : j < aps.length := lt_trans hji hilen0
    have hjfalse := hibefore j hji
    rw [hgetD j hjlen, hminopt] at hjfalse
    have hne2 : vars.getD j 0 ≠ m := by
      intro hc
      rw [show npEqOpt (some (vars.getD j 0)) (some m) = decide (vars.getD j 0 = m) from rfl,
        hc] at hjfalse
      simp at hjfalse
    rw [← hvarsD i hilen0, ← hvarsD j hjlen, hieq]
    exact lt_of_le_of_ne (hminle j hjlen) (Ne.symm hne2)

/-- C2: for every non-empty catalog and non-empty cutout sequence, the
selection scores each candidate by the standard deviation of its flux time
series (line 178, `np.std`; for two or more cadences the same index is also
the minimizer of the sample standard deviation, which is the population one
rescaled by the fixed factor `sqrt(n/(n-1))`) and returns the candidate whose
score is the minimum over all candidates; when several candidates attain the
minimum, the one with the lowest catalog index is returned. -/
theorem C2_confirmed (tpf : List Img) (aps : List Img) (ht : tpf ≠ []) (ha : aps ≠ []) :
    ∃ i, selectResult tpf aps = SelOutcome.ok i ∧ i < aps.length ∧
      (∀ j, j < aps.length →
        Real.sqrt ((popVar (allLC tpf (aps.getD i [])) : ℚ) : ℝ) ≤
          Real.sqrt ((popVar (allLC tpf (aps.getD j [])) : ℚ) : ℝ)) ∧
      (∀ j, j < aps.length →
        Real.sqrt ((popVar (allLC tpf (aps.getD j [])) : ℚ) : ℝ) =
          Real.sqrt ((popVar (allLC tpf (aps.getD i [])) : ℚ) : ℝ) → i ≤ j) ∧
      (2 ≤ tpf.length →
        (∀ j, j < aps.length →
          Real.sqrt ((sampleVar (allLC tpf (aps.getD i [])) : ℚ) : ℝ) ≤
            Real.sqrt ((sampleVar (allLC tpf (aps.getD j [])) : ℚ) : ℝ)) ∧
        (∀ j, j < aps.length →
          Real.sqrt ((sampleVar (allLC tpf (aps.getD j [])) : ℚ) : ℝ) =
            Real.sqrt ((sampleVar (allLC tpf (aps.getD i [])) : ℚ) : ℝ) → i ≤ j)) := by
  obtain ⟨i, hsel, hilen, hle, hstrict⟩ := selectResult_spec tpf aps ht ha
  have hQtie : ∀ j, j < aps.length →
      popVar (allLC tpf (aps.getD j [])) = popVar (allLC tpf (aps.getD i [])) → i ≤ j := by
    intro j hj hEq
    by_contra hij
    push_neg at hij
    exact absurd hEq (ne_of_gt (hstrict j hij))
  refine ⟨i, hsel, hilen, ?_, ?_, ?_⟩
  · intro j hj
    apply Real.sqrt_le_sqrt
    exact_mod_cast hle j hj
  · intro j hj hEq
    exact hQtie j hj
      (sqrt_cast_inj (popVar_nonneg _) (popVar_nonneg _) hEq)
  · intro h2n
    have h2a : ∀ a : Img, 2 ≤ (allLC tpf a).length := by
      intro a
      rw [allLC_length]
      exact h2n
    have hS : ∀ a : Img, sampleVar (allLC tpf a) =
        popVar (allLC tpf a) * ((tpf.length : ℚ) / ((tpf.length : ℚ) - 1)) := by
      intro a
      rw [sampleVar_eq_popVar_mul _ (h2a a), allLC_length]
    have hkpos : 0 < ((tpf.length : ℚ) / ((tpf.length : ℚ) - 1)) := by
      have h2q : (2 : ℚ) ≤ (tpf.length : ℚ) := by exact_mod_cast h2n
      apply div_pos <;> linarith
    constructor
    · intro j hj
      apply Real.sqrt_le_sqrt
      have := mul_le_mul_of_nonneg_right (hle j hj) hkpos.le
      rw [← hS, ← hS] at this
      exact_mod_cast this
    · intro j hj hEq
      have hSeq : sampleVar (allLC tpf (aps.getD j [])) =
          sampleVar (allLC tpf (aps.getD i [])) :=
        sqrt_cast_inj (sampleVar_nonneg _ (h2a _)) (sampleVar_nonneg _ (h2a _)) hEq
      rw [hS, hS] at hSeq
      exact hQtie j hj (mul_right_cancel₀ hkpos.ne' hSeq)

/-- Concrete instance of `C2_confirmed`: two cadences of 1x1 images with
values 1 and 3, a unit mask (flux scatter 1) and a zero mask (flux scatter
0); the selection returns index 1, the zero mask. -/
theorem C2_confirmed_witness :
    selectResult [[[1]], [[3]]] [[[1]], [[0]]] = SelOutcome.ok 1 ∧
    Real.sqrt ((popVar (allLC [[[1]], [[3]]] (([[[1]], [[0]]] : List Img).getD 1 [])) : ℚ) : ℝ) ≤
      Real.sqrt ((popVar (allLC [[[1]], [[3]]] (([[[1]], [[0]]] : List Img).getD 0 [])) : ℚ) : ℝ) := by
  obtain ⟨i, h1, h2, h3, h4, h5⟩ :=
    C2_confirmed [[[1]], [[3]]] [[[1]], [[0]]] (by simp) (by simp)
  have hcomp : selectResult [[[1]], [[3]]] [[[1]], [[0]]] = SelOutcome.ok 1 := by
    have hstds : stdsOf [[[1]], [[3]]] [[[1]], [[0]]] = [some 1, some 0] := by
      norm_num [stdsOf, npStdSq, allLC, fluxAt, sumImg2, popVar, sqDevSum, meanQ,
        List.range_succ]
    have hmin : npMinOpt [some (1 : ℚ), some 0] = some 0 := by
      rw [npMinOpt, if_neg (by simp)]
      have hfm : List.filterMap id [some (1 : ℚ), some 0] = [1, 0] := rfl
      rw [hfm]
      simp [listMinQ, min_def]
    rw [selectResult, hstds, selectBestIndex, hmin]
    norm_num [whereFirst, npEqOpt]
  have hi : i = 1 := by
    rw [hcomp] at h1
    injection h1.symm
  subst hi
  exact ⟨hcomp, h3 0 (by norm_num)⟩

/-- C5 counterexample: on an empty cutout sequence every candidate score is
NaN (`np.std` of an empty series); `np.where(stds == np.min(stds))` matches
nothing because NaN is unequal even to itself, so the `[0][0]` indexing at
line 182 raises `IndexError`.  The code neither raises
`NoValidApertureError` (no such error exists in the source) nor returns the
candidate at index 0. -/
theorem C5_counterexample :
    selectResult [] [[[1]]] = SelOutcome.indexError ∧
    selectResult [] [[[1]]] ≠ SelOutcome.noValidApertureError ∧
    selectResult [] [[[1]]] ≠ SelOutcome.ok 0 := by
  have h : selectResult [] [[[1]]] = SelOutcome.indexError := by
    rfl
  refine ⟨h, ?_, ?_⟩
  · rw [h]
    intro hc
    exact SelOutcome.noConfusion hc
  · rw [h]
    intro hc
    exact SelOutcome.noConfusion hc

/-- C5 amended: when the cutout sequence is empty, every candidate score is
NaN, and the selection at line 182 fails with an uncaught `IndexError`
(`np.where` matches nothing since NaN is unequal to itself) rather than an
explicit `NoValidApertureError`, which does not exist in the code; no
candidate, in particular not the one at index 0, is returned. -/
theorem C5_corrected_amended (aps : List Img) (ha : aps ≠ []) :
    stdsOf [] aps = List.replicate aps.length none ∧
    selectResult [] aps = SelOutcome.indexError := by
  have hstds : stdsOf [] aps = List.replicate aps.length none := by
    rw [stdsOf]
    apply List.eq_replicate_iff.mpr
    constructor
    · simp
    · intro b hb
      obtain ⟨a, ha2, rfl⟩ := List.mem_map.mp hb
      simp [npStdSq, allLC]
  have hmin : npMinOpt (stdsOf [] aps) = none := by
    rw [hstds, npMinOpt, if_pos]
    cases aps with
    | nil => exact absurd rfl ha
    | cons x xs => simp [List.replicate_succ]
  have hw : whereFirst (fun s => npEqOpt s (npMinOpt (stdsOf [] aps)))
      (stdsOf [] aps) = none := by
    apply (whereFirst_eq_none _ _).mpr
    intro x hx
    rw [hmin]
    cases x <;> rfl
  exact ⟨hstds, by rw [selectResult, selectBestIndex, hw]⟩

/-- Concrete instance of `C5_corrected_amended` with a one-mask catalog. -/
theorem C5_corrected_amended_witness :
    stdsOf [] [[[1]]] = List.replicate 1 none ∧
    selectResult [] [[[1]]] = SelOutcome.indexError :=
  C5_corrected_amended [[[1]]] (by simp)

end Selection

section JitterMasking

/-! ### Outlier masking of `jitter_corr` (lines 252-262) -/

/-- `lc[mask]`: the currently-included flux values. -/
def maskedVals (lc : List ℚ) (mask : List Bool) : List ℚ :=
  ((lc.zip mask).filter (fun p => p.2)).map (fun p => p.1)

/-- Decidable form of the outlier test `q <= m - 2.5*sqrt(s2)` for a
nonnegative variance `s2` (equivalence proved in `belowThresh_iff`): the
inequality holds exactly when `m - q` is nonnegative and
`(5/2)^2 * s2 <= (m - q)^2`. -/
def belowThresh (m s2 q : ℚ) : Bool :=
  decide (0 ≤ m - q) && decide ((5 / 2) ^ 2 * s2 ≤ (m - q) ^ 2)

/-- Lines 256-258 of `targetdata.py`: `std_mask = np.std(lc[mask])` and
`inds = np.where(lc <= np.mean(lc) - 2.5*std_mask)`.  The std is taken over
the included values only, but the mean is `np.mean(lc)`, the mean of the
WHOLE series, not of `lc[mask]`.  The score goes through `npStdSq` (the
NaN-aware squared-std encoding of the selection section): when every cadence
is already excluded, `np.std` of the empty selection is NaN, the threshold
`np.mean(lc) - 2.5*NaN` is NaN, and `lc <= NaN` is false everywhere, so no
cadence passes the test. -/
def exclTest (lc : List ℚ) (mask : List Bool) (t : ℕ) : Bool :=
  match npStdSq (maskedVals lc mask) with
  | none => false
  | some s2 => belowThresh (meanQ lc) s2 (lc.getD t 0)

/-- Lines 260-262: every index in `inds` gets `mask[j] = False`; indexes
outside `inds` keep their previous mask value.  The series length never
changes. -/
def stepMask (lc : List ℚ) (mask : List Bool) : List Bool :=
  (List.range lc.length).map (fun t => mask.getD t true && !(exclTest lc mask t))

/-- Lines 259-261: `y_err = np.ones(len(lc))**np.std(lc)` (all ones, since
`1**x == 1`), then `y_err[j] = np.inf` for every `j` in `inds`. -/
def yErrRound (lc : List ℚ) (mask : List Bool) : List (WithTop ℚ) :=
  (List.range lc.length).map (fun t =>
    if exclTest lc mask t then (⊤ : WithTop ℚ) else 1)

/-- The mask after `k` rounds of the `for i in range(5)` loop, starting from
`mask = np.ones(len(lc), dtype=bool)` (line 253).  The loop body never
reassigns `lc` (only `lc_new` is computed), so the same flux series feeds
every round. -/
def jitterMaskAfter (lc : List ℚ) : ℕ → List Bool
  | 0 => List.replicate lc.length true
  | k + 1 => stepMask lc (jitterMaskAfter lc k)

/-- The decidable outlier test agrees with the real-valued
`q <= m - 2.5*sqrt(s2)` test. -/
lemma belowThresh_iff (m s2 q : ℚ) (hs : 0 ≤ s2) :
    belowThresh m s2 q = true ↔
      ((q : ℚ) : ℝ) ≤ ((m : ℚ) : ℝ) - 5 / 2 * Real.sqrt ((s2 : ℚ) : ℝ) := by
  have hsr : (0 : ℝ) ≤ ((s2 : ℚ) : ℝ) := by exact_mod_cast hs
  have hc : (0 : ℝ) ≤ 5 / 2 * Real.sqrt ((s2 : ℚ) : ℝ) := by positivity
  have hcsq : (5 / 2 * Real.sqrt ((s2 : ℚ) : ℝ)) ^ 2 = (5 / 2 : ℝ) ^ 2 * ((s2 : ℚ) : ℝ) := by
    rw [mul_pow, Real.sq_sqrt hsr]
  rw [belowThresh, Bool.and_eq_true, decide_eq_true_eq, decide_eq_true_eq]
  constructor
  · rintro ⟨h1, h2⟩
    have hb : (0 : ℝ) ≤ ((m : ℚ) : ℝ) - ((q : ℚ) : ℝ) := by
      have h0 : (0 : ℝ) ≤ ((m - q : ℚ) : ℝ) := by exact_mod_cast h1
      push_cast at h0
      linarith
    have hsq : (5 / 2 * Real.sqrt ((s2 : ℚ) : ℝ)) ^ 2 ≤
        (((m : ℚ) : ℝ) - ((q : ℚ) : ℝ)) ^ 2 := by
      rw [hcsq]
      have h2r : (((5 / 2 : ℚ) ^ 2 * s2 : ℚ) : ℝ) ≤ (((m - q : ℚ) ^ 2 : ℚ) : ℝ) := by
        exact_mod_cast h2
      push_cast at h2r
      linarith
    have h3 := Real.sqrt_le_sqrt hsq
    rw [Real.sqrt_sq hc, Real.sqrt_sq hb] at h3
    linarith
  · intro h
    have h3 : 5 / 2 * Real.sqrt ((s2 : ℚ) : ℝ) ≤ ((m : ℚ) : ℝ) - ((q : ℚ) : ℝ) := by
      linarith
    have hb : (0 : ℝ) ≤ ((m : ℚ) : ℝ) - ((q : ℚ) : ℝ) := le_trans hc h3
    constructor
    · have h0 : (0 : ℝ) ≤ ((m - q : ℚ) : ℝ) := by push_cast; linarith
      exact_mod_cast h0
    · have hsq := pow_le_pow_left₀ hc h3 2
      rw [hcsq] at hsq
      have h5 : (((5 / 2 : ℚ) ^ 2 * s2 : ℚ) : ℝ) ≤ (((m - q : ℚ) ^ 2 : ℚ) : ℝ) := by
        push_cast
        linarith
      exact_mod_cast h5

/-- C6 amended: in each round of the jitter correction, the standard
deviation IS computed over the currently-included flux values only, but the
threshold mean is the mean of the WHOLE series, not of the included values.
While at least one cadence is still included, exactly the cadences with
`flux <= mean(all) - 2.5*std(included)` are marked excluded and given
infinite per-cadence weight-uncertainty in that round; once every cadence is
excluded, the std of the empty selection is NaN, no cadence tests below the
NaN threshold, the mask is unchanged and every weight-uncertainty stays 1.
In both cases the cadences remain present and the series length never
changes. -/
theorem C6_corrected_amended (lc : List ℚ) (mask : List Bool) (t : ℕ)
    (ht : t < lc.length) :
    (stepMask lc mask).length = lc.length ∧
    (yErrRound lc mask).length = lc.length ∧
    (maskedVals lc mask ≠ [] →
      (((stepMask lc mask).getD t true = false ↔
        (mask.getD t true = false ∨
          ((lc.getD t 0 : ℚ) : ℝ) ≤ ((meanQ lc : ℚ) : ℝ) -
            5 / 2 * Real.sqrt ((popVar (maskedVals lc mask) : ℚ) : ℝ))) ∧
       ((yErrRound lc mask).getD t 1 = (⊤ : WithTop ℚ) ↔
         ((lc.getD t 0 : ℚ) : ℝ) ≤ ((meanQ lc : ℚ) : ℝ) -
           5 / 2 * Real.sqrt ((popVar (maskedVals lc mask) : ℚ) : ℝ)))) ∧
    (maskedVals lc mask = [] →
      ((stepMask lc mask).getD t true = mask.getD t true ∧
       (yErrRound lc mask).getD t 1 = 1)) := by
  refine ⟨by simp [stepMask], by simp [yErrRound], ?_, ?_⟩
  · intro hne
    have hstd : npStdSq (maskedVals lc mask) = some (popVar (maskedVals lc mask)) := by
      cases hmv : maskedVals lc mask with
      | nil => exact absurd hmv hne
      | cons y ys =>
        rw [npStdSq]
        simp
    have hexcl : exclTest lc mask t =
        belowThresh (meanQ lc) (popVar (maskedVals lc mask)) (lc.getD t 0) := by
      rw [exclTest, hstd]
    have hiff : exclTest lc mask t = true ↔
        ((lc.getD t 0 : ℚ) : ℝ) ≤ ((meanQ lc : ℚ) : ℝ) -
          5 / 2 * Real.sqrt ((popVar (maskedVals lc mask) : ℚ) : ℝ) := by
      rw [hexcl]
      exact belowThresh_iff (meanQ lc) (popVar (maskedVals lc mask)) (lc.getD t 0)
        (popVar_nonneg _)
    constructor
    · rw [stepMask, getD_range_map _ _ _ _ ht, ← hiff]
      cases hm : mask.getD t true <;> cases he : exclTest lc mask t <;> simp [hm, he]
    · rw [yErrRound, getD_range_map _ _ _ _ ht, ← hiff]
      cases he : exclTest lc mask t <;> simp [he]
  · intro hemp
    have hexcl : exclTest lc mask t = false := by
      rw [exclTest, hemp]
      rfl
    constructor
    · rw [stepMask, getD_range_map _ _ _ _ ht, hexcl]
      simp
    · rw [yErrRound, getD_range_map _ _ _ _ ht, hexcl]
      rfl

/-- Concrete instance of `C6_corrected_amended`, exercising both branches:
the one-cadence series `[0]` with the all-true mask (non-empty included set)
and the one-cadence series `[10]` with the all-false mask (empty included
set: nothing excluded, weight-uncertainty stays 1). -/
theorem C6_corrected_amended_witness :
    (stepMask [(0 : ℚ)] [true]).length = 1 ∧
    ((stepMask [(0 : ℚ)] [true]).getD 0 true = false ↔
      (([true] : List Bool).getD 0 true = false ∨
        ((([(0 : ℚ)] : List ℚ).getD 0 0 : ℚ) : ℝ) ≤ ((meanQ [(0 : ℚ)] : ℚ) : ℝ) -
          5 / 2 * Real.sqrt ((popVar (maskedVals [(0 : ℚ)] [true]) : ℚ) : ℝ))) ∧
    ((yErrRound [(0 : ℚ)] [true]).getD 0 1 = (⊤ : WithTop ℚ) ↔
      ((([(0 : ℚ)] : List ℚ).getD 0 0 : ℚ) : ℝ) ≤ ((meanQ [(0 : ℚ)] : ℚ) : ℝ) -
        5 / 2 * Real.sqrt ((popVar (maskedVals [(0 : ℚ)] [true]) : ℚ) : ℝ)) ∧
    (stepMask [(10 : ℚ)] [false]).getD 0 true = ([false] : List Bool).getD 0 true ∧
    (yErrRound [(10 : ℚ)] [false]).getD 0 1 = 1 := by
  obtain ⟨hlen, _, hne, _⟩ := C6_corrected_amended [0] [true] 0 (by norm_num)
  obtain ⟨_, _, _, hemp⟩ := C6_corrected_amended [10] [false] 0 (by norm_num)
  obtain ⟨ha, hb⟩ := hne (by simp [maskedVals])
  obtain ⟨hc, hd⟩ := hemp (by simp [maskedVals])
  exact ⟨hlen, ha, hb, hc, hd⟩

/-- The concrete light curve showing the threshold discrepancy: one low
outlier (flux 0) among nine cadences of flux 10. -/
def lc0 : List ℚ := [0, 10, 10, 10, 10, 10, 10, 10, 10, 10]

/-- C6 counterexample: round 1 of the masking loop on `lc0` (from the
all-true mask) excludes exactly cadence 0.  In round 2 the included values
are nine 10s, so the claim's threshold,
`mean(included) - 2.5*std(included) = 10 - 0`, marks cadence 1 (flux 10)
excluded, but the code leaves cadence 1 included because its threshold is
`mean(all) - 2.5*std(included) = 9`. -/
theorem C6_counterexample :
    jitterMaskAfter lc0 1 =
      [false, true, true, true, true, true, true, true, true, true] ∧
    exclTest lc0 (jitterMaskAfter lc0 1) 1 = false ∧
    (stepMask lc0 (jitterMaskAfter lc0 1)).getD 1 true = true ∧
    ((lc0.getD 1 0 : ℚ) : ℝ) ≤
      ((meanQ (maskedVals lc0 (jitterMaskAfter lc0 1)) : ℚ) : ℝ) -
        5 / 2 * Real.sqrt ((popVar (maskedVals lc0 (jitterMaskAfter lc0 1)) : ℚ) : ℝ) := by
  have hmv1 : maskedVals lc0 (List.replicate 10 true) = lc0 := rfl
  have hmean : meanQ lc0 = 9 := by norm_num [lc0, meanQ]
  have hvar : popVar lc0 = 9 := by norm_num [lc0, popVar, sqDevSum, meanQ]
  have hstd1 : npStdSq lc0 = some 9 := by
    rw [npStdSq, if_neg (by rw [show lc0.isEmpty = false from rfl]; simp), hvar]
  have hb0 : belowThresh 9 9 0 = true := by norm_num [belowThresh]
  have hb10 : belowThresh 9 9 10 = false := by norm_num [belowThresh]
  have h1 : jitterMaskAfter lc0 1 =
      [false, true, true, true, true, true, true, true, true, true] := by
    show stepMask lc0 (List.replicate lc0.length true) = _
    rw [show lc0.length = 10 from rfl]
    rw [stepMask, show lc0.length = 10 from rfl]
    simp only [List.range_succ, List.range_zero, List.nil_append, List.cons_append,
      List.map_append, List.map_cons, List.map_nil, exclTest, hmv1, hstd1, hmean]
    norm_num [lc0, hb0, hb10]
  have hmv2 : maskedVals lc0 (jitterMaskAfter lc0 1) = List.replicate 9 10 := by
    rw [h1]
    rfl
  have hmean2 : meanQ (List.replicate 9 (10 : ℚ)) = 10 := by
    norm_num [meanQ, List.sum_replicate]
  have hvar2 : popVar (List.replicate 9 (10 : ℚ)) = 0 := by
    norm_num [popVar, sqDevSum, meanQ, List.sum_replicate]
  have hstd2 : npStdSq (List.replicate 9 (10 : ℚ)) = some 0 := by
    rw [npStdSq,
      if_neg (by rw [show (List.replicate 9 (10 : ℚ)).isEmpty = false from rfl]; simp),
      hvar2]
  have h2 : exclTest lc0 (jitterMaskAfter lc0 1) 1 = false := by
    rw [exclTest, hmv2, hstd2]
    show belowThresh (meanQ lc0) 0 (lc0.getD 1 0) = false
    rw [hmean]
    norm_num [lc0, belowThresh]
  refine ⟨h1, h2, ?_, ?_⟩
  · rw [stepMask, getD_range_map _ _ _ _ (show 1 < lc0.length by norm_num [lc0]), h2, h1]
    rfl
  · rw [hmv2, hmean2, hvar2]
    push_cast
    rw [Real.sqrt_zero]
    norm_num [lc0]

end JitterMasking

end Eleanor
